import Mathlib

/-!
Shallow embedding of the credential lifecycle manager of
`src/auth/tokenManager.ts` (class `TokenManager` together with its helper
classes `TempFileManager` and `FileLock`, the `withRetry` helper and the
`ShutdownPhase` enum).

Modelling conventions, used throughout:

* JavaScript values produced by `JSON.parse` are modelled by `JsonVal`;
  a file whose content does not parse is modelled by `none : Option JsonVal`.
* JavaScript truthiness is modelled field-by-field: a missing property is
  `none`, `""` and `0` are falsy, everything else handled per constructor.
* The `Credentials` object of google-auth-library is modelled by the
  `Credentials` structure below with its publicly used fields; a field that
  is absent/undefined is `none`.  `JSON.stringify` of a credentials object
  is `credFields` (absent fields are dropped, as stringify drops undefined).
* Asynchronous operations are modelled by their net effect on an explicit
  manager state (`MgrState`); each operation of the class runs to
  completion atomically, which is faithful to the source's single-threaded
  event loop for the properties proved here.  Fallible code returns
  `Except`.
-/

/-- Result of `JSON.parse` on a well-formed document: a JavaScript value. -/
inductive JsonVal where
  | jNull : JsonVal
  | jBool (b : Bool) : JsonVal
  | jNum (n : Int) : JsonVal
  | jStr (s : String) : JsonVal
  | jArr (elems : List JsonVal) : JsonVal
  | jObj (fields : List (String × JsonVal)) : JsonVal

/-- JavaScript truthiness of a value (`!v` in the source is its negation). -/
def jsTruthyVal : JsonVal → Bool
  | .jNull => false
  | .jBool b => b
  | .jNum n => n != 0
  | .jStr s => s != ""
  | .jArr _ => true
  | .jObj _ => true

/-- Whether `typeof v === "object"` holds in JavaScript (null and arrays
included). -/
def typeofIsObject : JsonVal → Bool
  | .jNull => true
  | .jArr _ => true
  | .jObj _ => true
  | _ => false

/-- Property lookup `v[k]` on a parsed value; `none` models `undefined`.
Only objects carry (string-keyed) properties in this model. -/
def objGet (fields : List (String × JsonVal)) (k : String) : Option JsonVal :=
  (fields.find? (fun p => p.1 = k)).map (fun p => p.2)

/-- Property access `v.k` on an arbitrary parsed value. -/
def getField : JsonVal → String → Option JsonVal
  | .jObj fields, k => objGet fields k
  | _, _ => none

/-- Truthiness of a possibly-absent property (`undefined` is falsy). -/
def jsTruthyOpt : Option JsonVal → Bool
  | none => false
  | some v => jsTruthyVal v

/-- Truthiness of a possibly-absent string field (absent and `""` falsy). -/
def jsTruthyStr : Option String → Bool
  | none => false
  | some s => s != ""

/-- Truthiness of a possibly-absent numeric field (absent and `0` falsy);
this is the `expiryDate ? _ : _` test of `refreshTokensIfNeededInternal`. -/
def jsTruthyInt : Option Int → Bool
  | none => false
  | some n => n != 0

/-- The `Credentials` object of google-auth-library as used by the source:
each field is absent (`none`) or present. -/
structure Credentials where
  access_token : Option String
  refresh_token : Option String
  expiry_date : Option Int
  token_type : Option String
  scope : Option String
  id_token : Option String
deriving DecidableEq, Repr

/-- A credentials object with every field absent (`{}` in the source). -/
def emptyCreds : Credentials := ⟨none, none, none, none, none, none⟩

/-- One optional field of the stringified credentials object. -/
def optField (k : String) : Option JsonVal → List (String × JsonVal)
  | none => []
  | some v => [(k, v)]

/-- The property list of `JSON.stringify(tokens)` for a credentials object:
present fields in declaration order, absent (undefined) fields dropped. -/
def credFields (c : Credentials) : List (String × JsonVal) :=
  optField "access_token" (c.access_token.map .jStr)
    ++ optField "refresh_token" (c.refresh_token.map .jStr)
    ++ optField "scope" (c.scope.map .jStr)
    ++ optField "token_type" (c.token_type.map .jStr)
    ++ optField "id_token" (c.id_token.map .jStr)
    ++ optField "expiry_date" (c.expiry_date.map .jNum)

/-- Post-write verification of `saveTokensInternal` (lines 729-741):
the temp file's content must parse (`none` models a parse failure, which
throws and is caught by the same handler), be truthy, have object type and
carry a truthy `access_token` property. -/
def saveVerifyOk : Option JsonVal → Bool
  | none => false
  | some v => jsTruthyVal v && typeofIsObject v && jsTruthyOpt (getField v "access_token")

/-- Post-write verification of `refreshTokensInternal` (lines 404-425):
unlike `saveVerifyOk` it only requires a truthy value of object type and
never inspects `access_token`. -/
def refreshVerifyOk : Option JsonVal → Bool
  | none => false
  | some v => jsTruthyVal v && typeofIsObject v

/-- The condition under which `loadSavedTokensInternal` accepts a parsed
token file: `!(!tokens || typeof tokens !== "object" || !tokens.access_token)`. -/
def isValidTokenObject (v : JsonVal) : Bool :=
  jsTruthyVal v && typeofIsObject v && jsTruthyOpt (getField v "access_token")

/-- The on-disk state of the token path: the file may be absent, present
but unreadable (`fs.readFile` throws), or present with some content,
which either fails to parse (`none`) or parses to a value. -/
inductive DiskFile where
  | absent : DiskFile
  | unreadable : DiskFile
  | content (c : Option JsonVal) : DiskFile

/-- Whether `fs.access` on the token path succeeds. -/
def fsAccessOk : DiskFile → Bool
  | .absent => false
  | _ => true

/-- `fs.readFile` on the token path; throws (`Except.error`) when the file
is absent or unreadable, otherwise yields the raw content (represented
already by its parse result). -/
def fsReadFile : DiskFile → Except Unit (Option JsonVal)
  | .absent => .error ()
  | .unreadable => .error ()
  | .content c => .ok c

/-- `JSON.parse`; throws on garbage content. -/
def jsonParseOp : Option JsonVal → Except Unit JsonVal
  | none => .error ()
  | some v => .ok v

/-- Whether an `Except` is a success. -/
def isOkB : Except ε α → Bool
  | .ok _ => true
  | .error _ => false

/-- `loadSavedTokensInternal` (lines 528-597): returns whether valid tokens
were installed together with the resulting on-disk state.  Mirrors the
source's try/catch structure: a missing file and a read error return
`false` without touching the file; a parse failure and an invalid token
shape return `false` after best-effort deleting the file (deletion
succeeds in this model).  The outer catch makes the operation total. -/
def loadSavedTokensInternal (d : DiskFile) : Except Unit Bool × DiskFile :=
  if !fsAccessOk d then (.ok false, d)
  else
    match fsReadFile d with
    | .error _ => (.ok false, d)
    | .ok raw =>
      match jsonParseOp raw with
      | .error _ => (.ok false, .absent)
      | .ok v =>
        if isValidTokenObject v then (.ok true, d)
        else (.ok false, .absent)

/-- The credentials installed by `setCredentials(tokens)` after a
successful load: the known fields extracted from the parsed object. -/
def strField (v : JsonVal) (k : String) : Option String :=
  match getField v k with
  | some (.jStr s) => some s
  | _ => none

/-- Numeric field extraction for `expiry_date`. -/
def intField (v : JsonVal) (k : String) : Option Int :=
  match getField v k with
  | some (.jNum n) => some n
  | _ => none

/-- The in-memory credentials corresponding to a parsed token object. -/
def credsOfJson (v : JsonVal) : Credentials :=
  ⟨strField v "access_token", strField v "refresh_token", intField v "expiry_date",
   strField v "token_type", strField v "scope", strField v "id_token"⟩

/-- The error an awaited refresh exchange can reject with: a `GaxiosError`
carrying the provider's `response.data.error` string (possibly absent), or
any other thrown error (including the source's own
`Error("Received invalid tokens during refresh")`). -/
inductive RefreshError where
  | gaxios (dataError : Option String) : RefreshError
  | generic : RefreshError
deriving DecidableEq, Repr

/-- The outcome of `oauth2Client.refreshAccessToken()`: either fresh
credentials or a rejection.  The exchange is external, so it is a
parameter of the model. -/
abbrev RefreshOutcome : Type := Except RefreshError Credentials

/-- Body of the `try` block of `refreshTokensIfNeededInternal`
(lines 614-624): await the exchange, then throw a plain error when the
response lacks an access token, otherwise succeed with the new tokens. -/
def refreshExchangeTry (o : RefreshOutcome) : Except RefreshError Credentials :=
  match o with
  | .error e => .error e
  | .ok t => if jsTruthyStr t.access_token then .ok t else .error .generic

/-- The `catch` handler of `refreshTokensIfNeededInternal` (lines 625-641):
a `GaxiosError` whose `response.data.error` is `"invalid_grant"` yields
`false`, and so does every other refresh error; nothing is rethrown. -/
def refreshCatch (e : RefreshError) : Bool :=
  match e with
  | .gaxios (some "invalid_grant") => false
  | _ => false

/-- Result of one `refreshTokensIfNeededInternal` run: the boolean the
promise resolves to, whether a refresh exchange was attempted, and the
credentials installed by `setCredentials` on success (if any). -/
structure RefreshResult where
  result : Bool
  attempted : Bool
  installed : Option Credentials
deriving DecidableEq, Repr

/-- `refreshTokensIfNeededInternal` (lines 606-652).  The expiry test is
`expiryDate ? Date.now() >= expiryDate - 5*60*1000 : !access_token`, with
JavaScript truthiness on `expiryDate` (so an expiry of `0` takes the
`!access_token` arm).  When expired with a truthy refresh token, the
exchange runs under the try/catch modelled above; otherwise the function
returns without attempting a refresh. -/
def refreshTokensIfNeededInternal (now : Int) (c : Credentials) (o : RefreshOutcome) :
    RefreshResult :=
  let isExpired :=
    if jsTruthyInt c.expiry_date then decide (now ≥ c.expiry_date.getD 0 - 5 * 60 * 1000)
    else !jsTruthyStr c.access_token
  if isExpired && jsTruthyStr c.refresh_token then
    match refreshExchangeTry o with
    | .ok t => ⟨true, true, some t⟩
    | .error e => ⟨refreshCatch e, true, none⟩
  else if !jsTruthyStr c.access_token && !jsTruthyStr c.refresh_token then
    ⟨false, false, none⟩
  else
    ⟨true, false, none⟩

/-- Object spread `{...old, ...new}` on property lists: a key present in
`new` takes `new`'s value, otherwise `old`'s value survives.  Implemented
as the `old` properties not shadowed by `new`, followed by `new`. -/
def spread2 (old new : List (String × JsonVal)) : List (String × JsonVal) :=
  old.filter (fun p => (objGet new p.1).isNone) ++ new

/-- Writing property `k` in an object literal after a spread: a defined
value sets the key, an undefined value leaves the key absent from the
eventual `JSON.stringify` output. -/
def setField (fields : List (String × JsonVal)) (k : String) :
    Option JsonVal → List (String × JsonVal)
  | none => fields.filter (fun p => ¬(p.1 = k))
  | some v => (k, v) :: fields.filter (fun p => ¬(p.1 = k))

/-- JavaScript `a || b` on possibly-undefined values. -/
def jsOrJson (a b : Option JsonVal) : Option JsonVal :=
  if jsTruthyOpt a then a else b

/-- The merge of `refreshTokensInternal` (lines 371-377):
`{...currentTokens, ...newTokens, refresh_token: newTokens.refresh_token || currentTokens.refresh_token}`. -/
def refreshMerge (currentFields newFields : List (String × JsonVal)) :
    List (String × JsonVal) :=
  setField (spread2 currentFields newFields) "refresh_token"
    (jsOrJson (objGet newFields "refresh_token") (objGet currentFields "refresh_token"))

/-- The enumerable own properties contributed by spreading an arbitrary
parsed value: objects contribute their fields, arrays and strings their
indexed elements, primitives nothing. -/
def spreadSourceFields : JsonVal → List (String × JsonVal)
  | .jObj fields => fields
  | .jArr elems => elems.enum.map (fun p => (toString p.1, p.2))
  | .jStr s => s.data.enum.map (fun p => (toString p.1, .jStr (String.singleton p.2)))
  | _ => []

/-- The `ShutdownPhase` enum (lines 9-14). -/
inductive ShutdownPhase where
  | running : ShutdownPhase
  | preparing : ShutdownPhase
  | finalizing : ShutdownPhase
  | complete : ShutdownPhase
deriving DecidableEq, Repr

/-- Numeric rank of a shutdown phase, in the declared progression order. -/
def phaseRank : ShutdownPhase → Nat
  | .running => 0
  | .preparing => 1
  | .finalizing => 2
  | .complete => 3

/-- Errors surfaced by the manager's public operations. -/
inductive TmError where
  | shuttingDown : TmError
  | verifyFailed : TmError
  | internal : TmError
deriving DecidableEq, Repr

/-- The mutable state of one `TokenManager` instance that the claims
depend on: the shutdown phase, the in-memory credentials of the shared
`oauth2Client`, the token file, and whether the `tokens` listener is
attached. -/
structure MgrState where
  phase : ShutdownPhase
  creds : Credentials
  disk : DiskFile
  listener : Bool

/-- `markAsShuttingDown` (lines 147-174): a no-op unless the phase is
`running`; otherwise it removes the listener and walks the phase through
`preparing` and `finalizing` to `complete` (the net effect of one full
run; no operations are pending in this atomic model). -/
def markAsShuttingDownOp (s : MgrState) : MgrState :=
  if s.phase ≠ .running then s
  else { s with phase := .complete, listener := false }

/-- `syncSaveTokens` (lines 880-906): refuses only in the `complete`
phase; otherwise writes the serialized credentials directly to the token
path (no temp file, no lock) and installs them in the client. -/
def syncSaveTokensOp (t : Credentials) (s : MgrState) : MgrState :=
  if s.phase = .complete then s
  else { s with disk := .content (some (.jObj (credFields t))), creds := t }

/-- `emergencyShutdown` (lines 909-926): force-sets the phase to
`finalizing`, removes the listener, sync-saves the in-memory credentials
whenever they hold a truthy access token, then sets the phase to
`complete`. -/
def emergencyShutdownOp (s : MgrState) : MgrState :=
  let s1 : MgrState := { s with phase := .finalizing, listener := false }
  let s2 := if jsTruthyStr s1.creds.access_token then syncSaveTokensOp s1.creds s1 else s1
  { s2 with phase := .complete }

/-- `saveTokens`/`saveTokensInternal` (lines 681-853), net effect of the
primary path: a phase other than `running` rejects before any filesystem
step (both the registry and the internal's own leading check refuse);
otherwise the serialized credentials are written to a tracked temp file,
verified with `saveVerifyOk`, and renamed onto the token path, after
which `setCredentials` installs them.  A verification failure deletes the
temp file and surfaces an error, leaving the token file untouched. -/
def saveTokensOp (t : Credentials) (s : MgrState) : Except TmError Unit × MgrState :=
  if s.phase ≠ .running then (.error .shuttingDown, s)
  else
    let written : JsonVal := .jObj (credFields t)
    if saveVerifyOk (some written) then
      (.ok (), { s with disk := .content (some written), creds := t })
    else
      (.error .verifyFailed, s)

/-- `loadSavedTokens` (lines 521-526): the internal promise is created
eagerly, so its effects (possible deletion of a corrupt file, credential
installation) occur in every phase; the registry then rejects the call
when the phase is not `running`, otherwise the internal result is
returned. -/
def loadTokensOp (s : MgrState) : Except TmError Bool × MgrState :=
  let r := loadSavedTokensInternal s.disk
  let creds2 :=
    match s.disk with
    | .content (some v) => if isValidTokenObject v then credsOfJson v else s.creds
    | _ => s.creds
  let s2 : MgrState := { s with disk := r.2, creds := creds2 }
  if s.phase ≠ .running then (.error .shuttingDown, s2)
  else
    match r.1 with
    | .ok b => (.ok b, s2)
    | .error _ => (.error .internal, s2)

/-- `clearTokens` (lines 855-877): the eagerly-run internal clears the
in-memory credentials and best-effort deletes the token file (deletion
succeeds in this model, and a missing file is fine); the registry rejects
the call itself outside the `running` phase. -/
def clearTokensOp (s : MgrState) : Except TmError Unit × MgrState :=
  let s2 : MgrState := { s with creds := emptyCreds, disk := .absent }
  if s.phase ≠ .running then (.error .shuttingDown, s2) else (.ok (), s2)

/-- `refreshTokensIfNeeded` (lines 599-604): the eagerly-run internal has
no phase guard, so its credential installation happens in every phase; the
registry rejects the call outside `running`. -/
def refreshTokensIfNeededOp (now : Int) (o : RefreshOutcome) (s : MgrState) :
    Except TmError Bool × MgrState :=
  let rr := refreshTokensIfNeededInternal now s.creds o
  let s2 : MgrState := { s with creds := rr.installed.getD s.creds }
  if s.phase ≠ .running then (.error .shuttingDown, s2) else (.ok rr.result, s2)

/-- `refreshTokensInternal` (lines 326-519), net effect of the primary
path: a phase other than `running` returns without touching anything.
Otherwise the existing record is read and merged (`refreshMerge`): a
readable, parseable current value contributes its spread-enumerable
fields, with a parsed `null` throwing on the `.refresh_token` access so
that the catch falls back to the new tokens alone, as do a missing,
unreadable or unparseable file.  The merged object always passes
`refreshVerifyOk`, so it is renamed onto the token path. -/
def refreshTokensInternalOp (newT : Credentials) (s : MgrState) : MgrState :=
  if s.phase ≠ .running then s
  else
    let newFields := credFields newT
    let merged :=
      match s.disk with
      | .content (some .jNull) => newFields
      | .content (some v) => refreshMerge (spreadSourceFields v) newFields
      | _ => newFields
    { s with disk := .content (some (.jObj merged)) }

/-- The listener registered by `setupTokenRefresh` (lines 303-323): fired
with fresh tokens, it schedules `refreshTokensInternal` unless the phase
has left `running` (both the listener and the internal check). -/
def tokensListenerOp (newT : Credentials) (s : MgrState) : MgrState :=
  if s.phase ≠ .running then s else refreshTokensInternalOp newT s

/-- One invocation of a manager entry point, with its external inputs. -/
inductive MgrOp where
  | mark : MgrOp
  | emergency : MgrOp
  | syncSave (t : Credentials) : MgrOp
  | save (t : Credentials) : MgrOp
  | load : MgrOp
  | clear : MgrOp
  | refreshIfNeeded (now : Int) (o : RefreshOutcome) : MgrOp
  | listenerRefresh (t : Credentials) : MgrOp

/-- State transition of one manager operation (results discarded). -/
def stepOp : MgrOp → MgrState → MgrState
  | .mark, s => markAsShuttingDownOp s
  | .emergency, s => emergencyShutdownOp s
  | .syncSave t, s => syncSaveTokensOp t s
  | .save t, s => (saveTokensOp t s).2
  | .load, s => (loadTokensOp s).2
  | .clear, s => (clearTokensOp s).2
  | .refreshIfNeeded now o, s => (refreshTokensIfNeededOp now o s).2
  | .listenerRefresh t, s => tokensListenerOp t s

/-- Whether an operation is the `emergencyShutdown` entry point. -/
def isEmergencyOp : MgrOp → Bool
  | .emergency => true
  | _ => false

/-- Filesystem state for the durable-write sequence shared by
`saveTokensInternal` and `refreshTokensInternal`: the token file, the
operation's temp file (its content given by its parse result), and
whether the temp path is still tracked by the `TempFileManager`. -/
structure RWState where
  disk : Option (Option JsonVal)
  temp : Option (Option JsonVal)
  tracked : Bool

/-- The write/verify/rename tail of `refreshTokensInternal`
(lines 395-447), given `w`, the parse result of what the write put in the
temp file: the temp file is created and tracked, verified with
`refreshVerifyOk`; on success the rename moves it onto the token path and
releases tracking, on failure the tracking is released, the temp file is
deleted and the verification error propagates. -/
def refreshWriteSeq (st : RWState) (w : Option JsonVal) : Except Unit Unit × RWState :=
  let st1 : RWState := { st with temp := some w, tracked := true }
  if refreshVerifyOk w then
    (.ok (), { st1 with disk := some w, temp := none, tracked := false })
  else
    (.error (), { st1 with temp := none, tracked := false })

/-- The corresponding write/verify/rename tail of `saveTokensInternal`
(lines 722-829), which verifies with the stronger `saveVerifyOk`. -/
def saveWriteSeq (st : RWState) (w : Option JsonVal) : Except Unit Unit × RWState :=
  let st1 : RWState := { st with temp := some w, tracked := true }
  if saveVerifyOk w then
    (.ok (), { st1 with disk := some w, temp := none, tracked := false })
  else
    (.error (), { st1 with temp := none, tracked := false })

/-- The record a `load` would need: a truthy object value whose
`access_token` property is truthy — the well-formedness the claims demand
of a persisted record. -/
def wellFormedRecord (w : Option JsonVal) : Bool :=
  match w with
  | none => false
  | some v => jsTruthyVal v && typeofIsObject v && jsTruthyOpt (getField v "access_token")

/-- The `pendingOperations` map (line 135) as an association list from
operation id to an opaque reference (here a number) identifying the
underlying promise. -/
abbrev Registry : Type := List (String × Nat)

/-- `Map.set(id, op)`: the entry for `id` is replaced. -/
def registryInsert (id : String) (op : Nat) (reg : Registry) : Registry :=
  (id, op) :: reg.filter (fun p => ¬(p.1 = id))

/-- `Map.delete(id)`, as performed by both settlement handlers of the
tracked operation. -/
def registryDelete (id : String) (reg : Registry) : Registry :=
  reg.filter (fun p => ¬(p.1 = id))

/-- Lookup of the registry entry recorded under an id. -/
def registryLookup (reg : Registry) (id : String) : Option Nat :=
  (reg.find? (fun p => p.1 = id)).map (fun p => p.2)

/-- `registerOperation` (lines 177-221): rejects with a ShuttingDown error
when the phase is not `running`, otherwise records the operation under
`id` (overwriting any entry already stored under the same id) and hands
back the wrapped promise. -/
def registerOperation (phase : ShutdownPhase) (id : String) (op : Nat) (reg : Registry) :
    Except TmError Registry :=
  if phase ≠ .running then .error .shuttingDown
  else .ok (registryInsert id op reg)

/-- Settlement of the wrapper built by `registerOperation` (lines
205-217): whichever way the underlying promise settles, the registry
entry under `id` is deleted and the original result or error is passed
through unchanged. -/
def settleWrapper (id : String) (reg : Registry) (out : Except String Nat) :
    Except String Nat × Registry :=
  (out, registryDelete id reg)

/-- The registry id `saveTokens` passes to `registerOperation` (line 683):
the fixed string literal of the source, identical for every invocation. -/
def saveTokensRegistryId : String := "save-tokens"

/-- Filesystem view for the byte-level interleaving model of one save:
the content at the token path and at the save's temp path, as raw byte
lists (`none` = file absent). -/
structure ByteFS where
  token : Option (List Nat)
  temp : Option (List Nat)

/-- One atomic filesystem event of `saveTokensInternal`'s primary path:
an incremental write to the temp file (whose on-disk content at that
moment is some prefix of the final bytes) or the atomic
`fs.rename(tempTokenPath, tokenPath)`. -/
inductive FStep where
  | writeTemp (content : List Nat) : FStep
  | rename : FStep

/-- Effect of one filesystem event. -/
def applyFStep : FStep → ByteFS → ByteFS
  | .writeTemp c, s => { s with temp := some c }
  | .rename, s =>
    match s.temp with
    | some c => { token := some c, temp := none }
    | none => s

/-- Effect of a sequence of filesystem events. -/
def applyFSteps (l : List FStep) (s : ByteFS) : ByteFS :=
  l.foldl (fun st f => applyFStep f st) s

/-- The temp-file write of one save, decomposed into the atomic states a
concurrent reader of the temp path could observe: every prefix of the new
content, ending with the complete content. -/
def writeTempSteps (c : List Nat) : List FStep :=
  (List.range (c.length + 1)).map (fun k => .writeTemp (c.take k))

/-- The primary durable-write path of `saveTokensInternal` as a sequence
of atomic filesystem events: stage the new content into the tracked temp
file (in arbitrarily small pieces), then atomically rename it over the
token path.  The in-lock verification reads only the temp file and is
filesystem-neutral, so it contributes no event. -/
def saveSteps (c : List Nat) : List FStep :=
  writeTempSteps c ++ [.rename]

/-- What a concurrent `loadSavedTokensInternal` started after `k` of the
save's events observes at the token path (loads read only `tokenPath`,
line 545). -/
def loadObserves (old : Option (List Nat)) (c : List Nat) (k : Nat) : Option (List Nat) :=
  (applyFSteps ((saveSteps c).take k) { token := old, temp := none }).token

/-! ### Helper lemmas about the filesystem step model -/

theorem applyFSteps_nil (s : ByteFS) : applyFSteps [] s = s := rfl

theorem applyFSteps_cons (f : FStep) (l : List FStep) (s : ByteFS) :
    applyFSteps (f :: l) s = applyFSteps l (applyFStep f s) := rfl

theorem applyFSteps_append (l₁ l₂ : List FStep) (s : ByteFS) :
    applyFSteps (l₁ ++ l₂) s = applyFSteps l₂ (applyFSteps l₁ s) := by
  simp [applyFSteps, List.foldl_append]

theorem token_of_writeTemps (l : List FStep)
    (h : ∀ st ∈ l, ∃ x, st = FStep.writeTemp x) (s : ByteFS) :
    (applyFSteps l s).token = s.token := by
  induction l generalizing s with
  | nil => rfl
  | cons a t ih =>
    obtain ⟨x, rfl⟩ := h a (by simp)
    rw [applyFSteps_cons]
    rw [ih (fun st hst => h st (by simp [hst]))]
    rfl

theorem temp_after_last_write (l : List FStep) (x : List Nat) (s : ByteFS) :
    (applyFSteps (l ++ [FStep.writeTemp x]) s).temp = some x := by
  rw [applyFSteps_append]
  rfl

theorem writeTempSteps_snoc (c : List Nat) :
    writeTempSteps c =
      (List.range c.length).map (fun k => FStep.writeTemp (c.take k)) ++
        [FStep.writeTemp c] := by
  unfold writeTempSteps
  rw [List.range_succ, List.map_append]
  simp [List.take_length]

theorem length_writeTempSteps (c : List Nat) :
    (writeTempSteps c).length = c.length + 1 := by
  simp [writeTempSteps]

theorem rename_token (s : ByteFS) (x : List Nat) (h : s.temp = some x) :
    (applyFStep FStep.rename s).token = some x := by
  obtain ⟨tok, tmp⟩ := s
  dsimp at h
  subst h
  rfl

/-- C1: atomic visibility of saves.  A `loadSavedTokensInternal` running
concurrently with one `saveTokensInternal` reads only the token path, so
its observation is determined by how many of the save's atomic filesystem
events precede it; at every such point it sees either the complete
pre-save record or the complete post-save record, never a prefix of a
half-written one, because the staged bytes go to the tracked temp path
and only the atomic rename touches the token path. -/
theorem C1_atomic_visibility (old : Option (List Nat)) (c : List Nat) (k : Nat) :
    loadObserves old c k = old ∨ loadObserves old c k = some c := by
  by_cases hk : k ≤ (writeTempSteps c).length
  · left
    unfold loadObserves saveSteps
    rw [List.take_append_of_le_length hk]
    apply token_of_writeTemps
    intro st hst
    have hmem : st ∈ writeTempSteps c := List.mem_of_mem_take hst
    unfold writeTempSteps at hmem
    rw [List.mem_map] at hmem
    obtain ⟨a, _, rfl⟩ := hmem
    exact ⟨_, rfl⟩
  · right
    push_neg at hk
    have hlen : (saveSteps c).length ≤ k := by
      have h1 := length_writeTempSteps c
      simp only [saveSteps, List.length_append, List.length_singleton, h1]
      omega
    unfold loadObserves
    rw [List.take_of_length_le hlen]
    unfold saveSteps
    rw [applyFSteps_append]
    have htemp :
        (applyFSteps (writeTempSteps c) { token := old, temp := none }).temp = some c := by
      rw [writeTempSteps_snoc]
      exact temp_after_last_write _ _ _
    exact rename_token _ _ htemp

/-! ### Helper lemmas about property lookup, spread and `setField` -/

theorem objGet_nil (k : String) : objGet [] k = none := rfl

theorem objGet_append (l₁ l₂ : List (String × JsonVal)) (k : String) :
    objGet (l₁ ++ l₂) k =
      match objGet l₁ k with
      | some v => some v
      | none => objGet l₂ k := by
  unfold objGet
  rw [List.find?_append]
  cases h : l₁.find? (fun p => decide (p.1 = k)) with
  | none => simp [Option.or]
  | some p => simp [Option.or]

theorem objGet_append_left_none (l₁ l₂ : List (String × JsonVal)) (k : String)
    (h : objGet l₁ k = none) : objGet (l₁ ++ l₂) k = objGet l₂ k := by
  rw [objGet_append, h]

theorem objGet_append_left_some (l₁ l₂ : List (String × JsonVal)) (k : String)
    (v : JsonVal) (h : objGet l₁ k = some v) : objGet (l₁ ++ l₂) k = some v := by
  rw [objGet_append, h]

theorem objGet_optField_same (k : String) (x : Option JsonVal) :
    objGet (optField k x) k = x := by
  cases x with
  | none => rfl
  | some v => simp [optField, objGet, List.find?]

theorem objGet_optField_ne (k k' : String) (x : Option JsonVal) (h : ¬(k' = k)) :
    objGet (optField k x) k' = none := by
  cases x with
  | none => rfl
  | some v =>
    have hd : decide (k = k') = false := decide_eq_false (fun hk => h hk.symm)
    simp [optField, objGet, List.find?, hd]

theorem objGet_filter_none (l : List (String × JsonVal)) (q : String × JsonVal → Bool)
    (k : String) (h : ∀ p : String × JsonVal, p.1 = k → q p = false) :
    objGet (l.filter q) k = none := by
  induction l with
  | nil => rfl
  | cons p t ih =>
    by_cases hq : q p = true
    · rw [List.filter_cons_of_pos hq]
      have hp : ¬(p.1 = k) := by
        intro hpk
        rw [h p hpk] at hq
        exact Bool.false_ne_true hq
      unfold objGet
      rw [List.find?_cons_of_neg _ (by simpa using hp)]
      exact ih
    · rw [List.filter_cons_of_neg (by simpa using hq)]
      exact ih

theorem objGet_filter_keep (l : List (String × JsonVal)) (q : String × JsonVal → Bool)
    (k : String) (h : ∀ p : String × JsonVal, p.1 = k → q p = true) :
    objGet (l.filter q) k = objGet l k := by
  induction l with
  | nil => rfl
  | cons p t ih =>
    by_cases hp : p.1 = k
    · rw [List.filter_cons_of_pos (h p hp)]
      unfold objGet
      rw [List.find?_cons_of_pos _ (by simpa using hp),
        List.find?_cons_of_pos _ (by simpa using hp)]
    · by_cases hq : q p = true
      · rw [List.filter_cons_of_pos hq]
        unfold objGet
        rw [List.find?_cons_of_neg _ (by simpa using hp),
          List.find?_cons_of_neg _ (by simpa using hp)]
        exact ih
      · rw [List.filter_cons_of_neg (by simpa using hq)]
        unfold objGet at ih ⊢
        rw [List.find?_cons_of_neg _ (by simpa using hp)]
        exact ih

theorem objGet_spread2_present (old new : List (String × JsonVal)) (k : String)
    (v : JsonVal) (h : objGet new k = some v) : objGet (spread2 old new) k = some v := by
  unfold spread2
  rw [objGet_append_left_none, h]
  apply objGet_filter_none
  intro p hp
  rw [hp, h]
  rfl

theorem objGet_spread2_absent (old new : List (String × JsonVal)) (k : String)
    (h : objGet new k = none) : objGet (spread2 old new) k = objGet old k := by
  unfold spread2
  rw [objGet_append]
  rw [objGet_filter_keep]
  · cases hv : objGet old k with
    | none => rw [h]
    | some v => rfl
  · intro p hp
    rw [hp, h]
    rfl

theorem objGet_setField_same (fs : List (String × JsonVal)) (k : String) (v : JsonVal) :
    objGet (setField fs k (some v)) k = some v := by
  simp [setField, objGet, List.find?]

theorem objGet_setField_other (fs : List (String × JsonVal)) (k k' : String)
    (x : Option JsonVal) (h : ¬(k' = k)) :
    objGet (setField fs k x) k' = objGet fs k' := by
  cases x with
  | none =>
    apply objGet_filter_keep
    intro p hp
    simpa [hp] using h
  | some v =>
    show objGet ((k, v) :: fs.filter (fun p => ¬(p.1 = k))) k' = objGet fs k'
    unfold objGet
    rw [List.find?_cons_of_neg _ (by simpa using fun hk => h hk.symm)]
    exact objGet_filter_keep fs _ k' (fun p hp => by simpa [hp] using h)

theorem objGet_credFields_access (c : Credentials) :
    objGet (credFields c) "access_token" = c.access_token.map .jStr := by
  unfold credFields
  simp only [List.append_assoc]
  cases c.access_token with
  | some a =>
    exact objGet_append_left_some _ _ _ _ (objGet_optField_same _ _)
  | none =>
    simp only [Option.map_none']
    rw [objGet_append_left_none _ _ _ (objGet_optField_same _ _),
      objGet_append_left_none _ _ _ (objGet_optField_ne _ _ _ (by decide)),
      objGet_append_left_none _ _ _ (objGet_optField_ne _ _ _ (by decide)),
      objGet_append_left_none _ _ _ (objGet_optField_ne _ _ _ (by decide)),
      objGet_append_left_none _ _ _ (objGet_optField_ne _ _ _ (by decide))]
    exact objGet_optField_ne _ _ _ (by decide)

theorem objGet_credFields_refresh (c : Credentials) :
    objGet (credFields c) "refresh_token" = c.refresh_token.map .jStr := by
  unfold credFields
  simp only [List.append_assoc]
  rw [objGet_append_left_none _ _ _ (objGet_optField_ne _ _ _ (by decide))]
  cases c.refresh_token with
  | some r =>
    exact objGet_append_left_some _ _ _ _ (objGet_optField_same _ _)
  | none =>
    simp only [Option.map_none']
    rw [objGet_append_left_none _ _ _ (objGet_optField_same _ _),
      objGet_append_left_none _ _ _ (objGet_optField_ne _ _ _ (by decide)),
      objGet_append_left_none _ _ _ (objGet_optField_ne _ _ _ (by decide)),
      objGet_append_left_none _ _ _ (objGet_optField_ne _ _ _ (by decide))]
    exact objGet_optField_ne _ _ _ (by decide)

/-- C2: refresh-token stickiness.  When the on-disk record carries
`refresh_token` R1 and `refreshTokensInternal` runs with a partial
credential supplying a new access token A2 but no refresh token, the
persisted record has `access_token` A2 and still `refresh_token` R1,
because the merge falls back to the current record's refresh token. -/
theorem C2_refresh_token_stickiness (s : MgrState) (newT : Credentials)
    (cur : List (String × JsonVal)) (r1 a2 : String)
    (hphase : s.phase = .running)
    (hdisk : s.disk = .content (some (.jObj cur)))
    (hcur : objGet cur "refresh_token" = some (.jStr r1))
    (hnew : newT.refresh_token = none)
    (hacc : newT.access_token = some a2) :
    ∃ fs, (refreshTokensInternalOp newT s).disk = .content (some (.jObj fs)) ∧
      objGet fs "access_token" = some (.jStr a2) ∧
      objGet fs "refresh_token" = some (.jStr r1) := by
  have hnfAcc : objGet (credFields newT) "access_token" = some (.jStr a2) := by
    rw [objGet_credFields_access, hacc]
    rfl
  have hnfRef : objGet (credFields newT) "refresh_token" = none := by
    rw [objGet_credFields_refresh, hnew]
    rfl
  refine ⟨refreshMerge cur (credFields newT), ?_, ?_, ?_⟩
  · simp [refreshTokensInternalOp, hphase, hdisk, spreadSourceFields]
  · unfold refreshMerge
    rw [objGet_setField_other _ _ _ _ (by decide)]
    exact objGet_spread2_present _ _ _ _ hnfAcc
  · unfold refreshMerge
    rw [hnfRef, hcur]
    have hj : jsOrJson none (some (JsonVal.jStr r1)) = some (.jStr r1) := rfl
    rw [hj]
    exact objGet_setField_same _ _ _

/-- Witness for C2 at a concrete record and partial credential. -/
theorem C2_refresh_token_stickiness_witness :
    ∃ fs,
      (refreshTokensInternalOp { emptyCreds with access_token := some "A2" }
        ⟨.running, emptyCreds,
          .content (some (.jObj [("access_token", .jStr "A1"), ("refresh_token", .jStr "R1")])),
          true⟩).disk = .content (some (.jObj fs)) ∧
      objGet fs "access_token" = some (.jStr "A2") ∧
      objGet fs "refresh_token" = some (.jStr "R1") :=
  C2_refresh_token_stickiness _ _
    [("access_token", .jStr "A1"), ("refresh_token", .jStr "R1")] "R1" "A2"
    rfl rfl rfl rfl rfl

/-! ### Helper lemmas about the manager operations -/

theorem phaseRank_le_complete (p : ShutdownPhase) :
    phaseRank p ≤ phaseRank .complete := by
  cases p <;> simp [phaseRank]

theorem emergencyShutdownOp_phase (s : MgrState) :
    (emergencyShutdownOp s).phase = .complete := rfl

theorem syncSaveTokensOp_phase (t : Credentials) (s : MgrState) :
    (syncSaveTokensOp t s).phase = s.phase := by
  unfold syncSaveTokensOp
  split <;> rfl

theorem saveTokensOp_phase (t : Credentials) (s : MgrState) :
    (saveTokensOp t s).2.phase = s.phase := by
  simp only [saveTokensOp]
  split
  · rfl
  · split <;> rfl

theorem loadTokensOp_phase (s : MgrState) : (loadTokensOp s).2.phase = s.phase := by
  simp only [loadTokensOp]
  split
  · rfl
  · split <;> rfl

theorem loadTokensOp_disk (s : MgrState) :
    (loadTokensOp s).2.disk = (loadSavedTokensInternal s.disk).2 := by
  simp only [loadTokensOp]
  split
  · rfl
  · split <;> rfl

theorem clearTokensOp_phase (s : MgrState) : (clearTokensOp s).2.phase = s.phase := by
  simp only [clearTokensOp]
  split <;> rfl

theorem clearTokensOp_disk (s : MgrState) : (clearTokensOp s).2.disk = .absent := by
  simp only [clearTokensOp]
  split <;> rfl

theorem refreshTokensIfNeededOp_phase (now : Int) (o : RefreshOutcome) (s : MgrState) :
    (refreshTokensIfNeededOp now o s).2.phase = s.phase := by
  simp only [refreshTokensIfNeededOp]
  split <;> rfl

theorem refreshTokensIfNeededOp_disk (now : Int) (o : RefreshOutcome) (s : MgrState) :
    (refreshTokensIfNeededOp now o s).2.disk = s.disk := by
  simp only [refreshTokensIfNeededOp]
  split <;> rfl

theorem refreshTokensInternalOp_phase (t : Credentials) (s : MgrState) :
    (refreshTokensInternalOp t s).phase = s.phase := by
  unfold refreshTokensInternalOp
  split <;> rfl

theorem tokensListenerOp_phase (t : Credentials) (s : MgrState) :
    (tokensListenerOp t s).phase = s.phase := by
  unfold tokensListenerOp
  split
  · rfl
  · exact refreshTokensInternalOp_phase t s

theorem loadInternal_disk (d : DiskFile) :
    (loadSavedTokensInternal d).2 = d ∨ (loadSavedTokensInternal d).2 = .absent := by
  cases d with
  | absent => left; rfl
  | unreadable => left; rfl
  | content c =>
    cases c with
    | none => right; rfl
    | some v =>
      by_cases h : isValidTokenObject v = true
      · left
        simp [loadSavedTokensInternal, fsAccessOk, fsReadFile, jsonParseOp, h]
      · right
        simp [loadSavedTokensInternal, fsAccessOk, fsReadFile, jsonParseOp, h]

/-- C3 counterexample: with the shutdown phase already `complete` and an
access token in memory, `emergencyShutdown` is not a no-op — it force-sets
the phase back to `finalizing`, which lets `syncSaveTokens` past its
`complete`-phase guard, so the token file is written even though the phase
had reached `complete` (here the file goes from absent to present). -/
theorem C3_shutdown_monotonicity_counterexample :
    (emergencyShutdownOp
        ⟨.complete, { emptyCreds with access_token := some "A" }, .absent, false⟩).disk =
      .content (some (.jObj [("access_token", .jStr "A")])) ∧
    (⟨.complete, { emptyCreds with access_token := some "A" }, .absent, false⟩ :
        MgrState).disk = .absent := by
  constructor <;> rfl

/-- C3 amended: across every operation the phase never goes backwards as
observed at operation boundaries, and once the phase is `complete` no
operation other than `emergencyShutdown` writes content to the token file
(the file can only stay as it is or be deleted by load/clear cleanup).
`emergencyShutdown` itself always ends in `complete` but is not a no-op
when invoked at `complete`: whenever a truthy access token is in memory it
re-runs the synchronous save and writes the token file. -/
theorem C3_shutdown_phase_amended (s : MgrState) (op : MgrOp) :
    phaseRank s.phase ≤ phaseRank (stepOp op s).phase ∧
    (isEmergencyOp op = false → s.phase = .complete →
      ((stepOp op s).disk = s.disk ∨ (stepOp op s).disk = .absent)) ∧
    (emergencyShutdownOp s).phase = .complete ∧
    (s.phase = .complete → jsTruthyStr s.creds.access_token = true →
      (emergencyShutdownOp s).disk = .content (some (.jObj (credFields s.creds)))) := by
  refine ⟨?_, ?_, emergencyShutdownOp_phase s, ?_⟩
  · cases op with
    | mark =>
      show phaseRank s.phase ≤ phaseRank (markAsShuttingDownOp s).phase
      unfold markAsShuttingDownOp
      by_cases h : s.phase = .running
      · rw [if_neg (by simp [h])]
        rw [h]
        exact phaseRank_le_complete _
      · rw [if_pos (by simp [h])]
    | emergency =>
      show phaseRank s.phase ≤ phaseRank (emergencyShutdownOp s).phase
      rw [emergencyShutdownOp_phase]
      exact phaseRank_le_complete _
    | syncSave t =>
      show phaseRank s.phase ≤ phaseRank (syncSaveTokensOp t s).phase
      rw [syncSaveTokensOp_phase]
    | save t =>
      show phaseRank s.phase ≤ phaseRank (saveTokensOp t s).2.phase
      rw [saveTokensOp_phase]
    | load =>
      show phaseRank s.phase ≤ phaseRank (loadTokensOp s).2.phase
      rw [loadTokensOp_phase]
    | clear =>
      show phaseRank s.phase ≤ phaseRank (clearTokensOp s).2.phase
      rw [clearTokensOp_phase]
    | refreshIfNeeded now o =>
      show phaseRank s.phase ≤ phaseRank (refreshTokensIfNeededOp now o s).2.phase
      rw [refreshTokensIfNeededOp_phase]
    | listenerRefresh t =>
      show phaseRank s.phase ≤ phaseRank (tokensListenerOp t s).phase
      rw [tokensListenerOp_phase]
  · intro hEm hC
    cases op with
    | mark =>
      left
      show (markAsShuttingDownOp s).disk = s.disk
      unfold markAsShuttingDownOp
      rw [if_pos (by simp [hC])]
    | emergency => simp [isEmergencyOp] at hEm
    | syncSave t =>
      left
      show (syncSaveTokensOp t s).disk = s.disk
      unfold syncSaveTokensOp
      rw [if_pos hC]
    | save t =>
      left
      show (saveTokensOp t s).2.disk = s.disk
      unfold saveTokensOp
      rw [if_pos (by simp [hC])]
    | load =>
      show (loadTokensOp s).2.disk = s.disk ∨ (loadTokensOp s).2.disk = .absent
      rw [loadTokensOp_disk]
      exact loadInternal_disk s.disk
    | clear =>
      right
      exact clearTokensOp_disk s
    | refreshIfNeeded now o =>
      left
      exact refreshTokensIfNeededOp_disk now o s
    | listenerRefresh t =>
      left
      show (tokensListenerOp t s).disk = s.disk
      unfold tokensListenerOp
      rw [if_pos (by simp [hC])]
  · intro _ h2
    simp [emergencyShutdownOp, syncSaveTokensOp, h2]

/-- Witness for C3 amended at the `complete` phase with `load` and with
`emergencyShutdown` on a concrete state holding an access token. -/
theorem C3_shutdown_phase_amended_witness :
    phaseRank (⟨.complete, { emptyCreds with access_token := some "A" }, .absent, false⟩ :
        MgrState).phase ≤
      phaseRank (stepOp .load
        ⟨.complete, { emptyCreds with access_token := some "A" }, .absent, false⟩).phase ∧
    ((stepOp .load
        ⟨.complete, { emptyCreds with access_token := some "A" }, .absent, false⟩).disk =
        (⟨.complete, { emptyCreds with access_token := some "A" }, .absent, false⟩ :
          MgrState).disk ∨
      (stepOp .load
        ⟨.complete, { emptyCreds with access_token := some "A" }, .absent, false⟩).disk =
        .absent) ∧
    (emergencyShutdownOp
        ⟨.complete, { emptyCreds with access_token := some "A" }, .absent, false⟩).disk =
      .content (some (.jObj (credFields
        (⟨.complete, { emptyCreds with access_token := some "A" }, .absent, false⟩ :
          MgrState).creds))) :=
  ⟨(C3_shutdown_phase_amended
      ⟨.complete, { emptyCreds with access_token := some "A" }, .absent, false⟩ .load).1,
   (C3_shutdown_phase_amended
      ⟨.complete, { emptyCreds with access_token := some "A" }, .absent, false⟩ .load).2.1
      rfl rfl,
   (C3_shutdown_phase_amended
      ⟨.complete, { emptyCreds with access_token := some "A" }, .absent, false⟩ .load).2.2.2
      rfl rfl⟩

/-- C5: shutdown admission.  Once `markAsShuttingDown` has run, the phase
is never `running` again, and in every state whose phase has left
`running` a `saveTokens` call rejects immediately with the ShuttingDown
error and leaves the whole state — in particular the filesystem —
untouched. -/
theorem C5_shutdown_admission (s0 s : MgrState) (t : Credentials)
    (h : s.phase ≠ .running) :
    (markAsShuttingDownOp s0).phase ≠ .running ∧
    saveTokensOp t s = (.error .shuttingDown, s) := by
  constructor
  · unfold markAsShuttingDownOp
    by_cases h0 : s0.phase = .running
    · rw [if_neg (by simp [h0])]
      intro hc
      cases hc
    · rw [if_pos (by simp [h0])]
      exact h0
  · unfold saveTokensOp
    rw [if_pos h]

/-- Witness for C5 in the `preparing` phase reached by `beginShutdown`. -/
theorem C5_shutdown_admission_witness :
    (markAsShuttingDownOp ⟨.running, emptyCreds, .absent, true⟩).phase ≠ .running ∧
    saveTokensOp emptyCreds ⟨.preparing, emptyCreds, .absent, true⟩ =
      (.error .shuttingDown, ⟨.preparing, emptyCreds, .absent, true⟩) :=
  C5_shutdown_admission ⟨.running, emptyCreds, .absent, true⟩
    ⟨.preparing, emptyCreds, .absent, true⟩ emptyCreds (by decide)

/-- The underlying `refreshCatch` handler returns `false` for every
refresh error, invalid grant or otherwise. -/
theorem refreshCatch_false (e : RefreshError) : refreshCatch e = false := by
  unfold refreshCatch
  split <;> rfl

/-- Evaluation of `refreshTokensIfNeededInternal`'s attempted flag when
the credential has a nonzero expiry. -/
theorem refreshInternal_attempted_nonzero (now e : Int) (a r : Option String)
    (tt sc idt : Option String) (he : e ≠ 0) (o : RefreshOutcome) :
    (refreshTokensIfNeededInternal now ⟨a, r, some e, tt, sc, idt⟩ o).attempted =
      (decide (now ≥ e - 5 * 60 * 1000) && jsTruthyStr r) := by
  have he2 : jsTruthyInt (some e) = true := by
    simp [jsTruthyInt, bne_iff_ne, he]
  simp only [refreshTokensIfNeededInternal, he2, if_true, Option.getD]
  by_cases hc : (decide (now ≥ e - 5 * 60 * 1000) && jsTruthyStr r) = true
  · rw [if_pos hc, hc]
    cases o with
    | ok t =>
      by_cases ht : jsTruthyStr t.access_token = true
      · simp [refreshExchangeTry, ht]
      · simp [refreshExchangeTry, ht]
    | error err => simp [refreshExchangeTry]
  · rw [if_neg hc]
    rw [Bool.not_eq_true] at hc
    rw [hc]
    split <;> rfl

/-- C6 counterexample: a credential whose `expiry_date` is `0` — an
expiry unambiguously in the past, so `now >= expiry - 5min` holds — with
an access token and a refresh token present is nevertheless treated as
still valid: JavaScript truthiness makes `expiryDate ? ... : ...` take the
missing-expiry arm on `0`, so no refresh is attempted and the call
resolves to `true`, contradicting "expired exactly when
now >= expiry - 5 minutes". -/
theorem C6_expiry_boundary_counterexample :
    ((1000000 : Int) ≥ 0 - 5 * 60 * 1000) ∧
    jsTruthyStr ({ emptyCreds with
        access_token := some "A"
        refresh_token := some "R"
        expiry_date := some 0 } : Credentials).refresh_token = true ∧
    (refreshTokensIfNeededInternal 1000000
        { emptyCreds with
          access_token := some "A"
          refresh_token := some "R"
          expiry_date := some 0 } (.error .generic)).attempted = false ∧
    (refreshTokensIfNeededInternal 1000000
        { emptyCreds with
          access_token := some "A"
          refresh_token := some "R"
          expiry_date := some 0 } (.error .generic)).result = true := by
  refine ⟨by decide, rfl, rfl, rfl⟩

/-- C6 amended: for a credential with a nonzero expiry,
`refreshTokensIfNeededInternal` attempts a refresh exactly when
`now >= expiry - 5min` and a truthy refresh token is present (so
`expiry = now + 4min` triggers a refresh and `expiry = now + 6min` does
not), while a credential with a nonempty access token and no expiry field
is treated as still valid with no refresh attempted; an expiry equal to
`0` is treated like a missing one by the source's truthiness test. -/
theorem C6_expiry_boundary_amended (now e : Int) (a r : Option String)
    (o : RefreshOutcome) (he : e ≠ 0) :
    ((refreshTokensIfNeededInternal now
        ⟨a, r, some e, none, none, none⟩ o).attempted = true ↔
      (now ≥ e - 5 * 60 * 1000 ∧ jsTruthyStr r = true)) ∧
    (∀ a2 : String, a2 ≠ "" →
      refreshTokensIfNeededInternal now
        ⟨some a2, r, none, none, none, none⟩ o = ⟨true, false, none⟩) := by
  constructor
  · rw [refreshInternal_attempted_nonzero now e a r none none none he o]
    simp [Bool.and_eq_true, decide_eq_true_eq]
  · intro a2 ha2
    have ha3 : jsTruthyStr (some a2) = true := by
      simp [jsTruthyStr, bne_iff_ne, ha2]
    simp [refreshTokensIfNeededInternal, jsTruthyInt, ha3]

/-- Witness for C6 amended: at `now = 1000000`, an expiry four minutes
ahead (1240000) with a refresh token present triggers a refresh, one six
minutes ahead (1360000) does not, and an access token with no expiry is
left alone. -/
theorem C6_expiry_boundary_witness :
    (refreshTokensIfNeededInternal 1000000
        ⟨some "A", some "R", some 1240000, none, none, none⟩
        (.error .generic)).attempted = true ∧
    (refreshTokensIfNeededInternal 1000000
        ⟨some "A", some "R", some 1360000, none, none, none⟩
        (.error .generic)).attempted = false ∧
    refreshTokensIfNeededInternal 1000000
        ⟨some "A", none, none, none, none, none⟩ (.error .generic) =
      ⟨true, false, none⟩ :=
  ⟨((C6_expiry_boundary_amended 1000000 1240000 (some "A") (some "R")
      (.error .generic) (by decide)).1).mpr ⟨by decide, by decide⟩,
   by
    have h := (C6_expiry_boundary_amended 1000000 1360000 (some "A") (some "R")
      (.error .generic) (by decide)).1
    have hneg : ¬((1000000 : Int) ≥ 1360000 - 5 * 60 * 1000 ∧
        jsTruthyStr (some "R") = true) := by decide
    cases hb : (refreshTokensIfNeededInternal 1000000
        ⟨some "A", some "R", some 1360000, none, none, none⟩
        (.error .generic)).attempted with
    | false => rfl
    | true => exact absurd (h.mp hb) hneg,
   (C6_expiry_boundary_amended 1000000 1 (some "A") none (.error .generic)
      (by decide)).2 "A" (by decide)⟩

/-- C7: load totality and corrupt-file self-heal.  For every on-disk
state, `loadSavedTokensInternal` settles successfully (never raises): it
returns false on a missing file, on an unreadable file, on content that is
not valid JSON and on a record without a truthy access token — and in the
latter two cases the corrupt file is deleted, so after loading non-JSON
garbage the token file no longer exists. -/
theorem C7_load_total_and_self_heal :
    (∀ d : DiskFile, isOkB (loadSavedTokensInternal d).1 = true) ∧
    loadSavedTokensInternal .absent = (.ok false, .absent) ∧
    loadSavedTokensInternal .unreadable = (.ok false, .unreadable) ∧
    loadSavedTokensInternal (.content none) = (.ok false, .absent) ∧
    (∀ v : JsonVal, isValidTokenObject v = false →
      loadSavedTokensInternal (.content (some v)) = (.ok false, .absent)) := by
  refine ⟨?_, rfl, rfl, rfl, ?_⟩
  · intro d
    cases d with
    | absent => rfl
    | unreadable => rfl
    | content c =>
      cases c with
      | none => rfl
      | some v =>
        by_cases h : isValidTokenObject v = true
        · simp [loadSavedTokensInternal, fsAccessOk, fsReadFile, jsonParseOp, isOkB, h]
        · simp [loadSavedTokensInternal, fsAccessOk, fsReadFile, jsonParseOp, isOkB, h]
  · intro v h
    simp [loadSavedTokensInternal, fsAccessOk, fsReadFile, jsonParseOp, h]

/-- Witness for C7 on non-JSON garbage and on a record lacking an access
token. -/
theorem C7_load_total_and_self_heal_witness :
    isOkB (loadSavedTokensInternal (.content none)).1 = true ∧
    loadSavedTokensInternal (.content (some (.jObj []))) = (.ok false, .absent) :=
  ⟨C7_load_total_and_self_heal.1 (.content none),
   C7_load_total_and_self_heal.2.2.2.2 (.jObj []) rfl⟩

/-- C8: every failed refresh exchange — a provider-reported invalid_grant
like any other refresh error — makes `refreshTokensIfNeededInternal`
resolve to `false` through its catch handler rather than raising. -/
theorem C8_invalid_grant_boolean (now : Int) (c : Credentials) (e : RefreshError)
    (h : (refreshTokensIfNeededInternal now c (.error e)).attempted = true) :
    (refreshTokensIfNeededInternal now c (.error e)).result = false := by
  revert h
  simp only [refreshTokensIfNeededInternal, refreshExchangeTry]
  split
  · split
    · intro _
      exact refreshCatch_false e
    · split
      · intro h
        simp at h
      · intro h
        simp at h
  · split
    · intro _
      exact refreshCatch_false e
    · split
      · intro h
        simp at h
      · intro h
        simp at h

/-- Witness for C8: an expired credential with a refresh token whose
exchange reports invalid_grant yields `false`. -/
theorem C8_invalid_grant_boolean_witness :
    (refreshTokensIfNeededInternal 1000000
        ⟨some "A", some "R", some 500000, none, none, none⟩
        (.error (.gaxios (some "invalid_grant")))).result = false :=
  C8_invalid_grant_boolean 1000000
    ⟨some "A", some "R", some 500000, none, none, none⟩
    (.gaxios (some "invalid_grant")) (by decide)

/-- C10: a credential holding a nonempty access token whose nonzero
expiry already lies within the five-minute buffer but which has no
refresh token is reported as valid: `refreshTokensIfNeededInternal`
resolves to `true` without attempting any refresh. -/
theorem C10_expired_unrefreshable_reports_true (now e : Int) (a : String)
    (o : RefreshOutcome) (he : e ≠ 0) (_hpast : now ≥ e - 5 * 60 * 1000)
    (ha : a ≠ "") :
    refreshTokensIfNeededInternal now
      ⟨some a, none, some e, none, none, none⟩ o = ⟨true, false, none⟩ := by
  have he2 : jsTruthyInt (some e) = true := by
    simp [jsTruthyInt, bne_iff_ne, he]
  have ha2 : jsTruthyStr (some a) = true := by
    simp [jsTruthyStr, bne_iff_ne, ha]
  simp [refreshTokensIfNeededInternal, he2, ha2, jsTruthyStr, ha]

/-- Witness for C10 at a concrete past expiry. -/
theorem C10_expired_unrefreshable_reports_true_witness :
    refreshTokensIfNeededInternal 1000000
      ⟨some "A", none, some 500000, none, none, none⟩ (.error .generic) =
      ⟨true, false, none⟩ :=
  C10_expired_unrefreshable_reports_true 1000000 500000 "A" (.error .generic)
    (by decide) (by decide) (by decide)

/-- A record passing save's verification also passes refresh's weaker
verification. -/
theorem saveVerify_implies_refreshVerify (w : Option JsonVal)
    (h : saveVerifyOk w = true) : refreshVerifyOk w = true := by
  cases w with
  | none => simp [saveVerifyOk] at h
  | some v =>
    simp only [saveVerifyOk, Bool.and_eq_true] at h
    simp only [refreshVerifyOk, Bool.and_eq_true]
    exact ⟨h.1.1, h.1.2⟩

/-- C4 counterexample: the empty object is a record that is not
well-formed (it has no access token), yet `refreshTokensInternal`'s
post-write verification lets it through without raising — whereas
`saveTokensInternal`'s verification raises on the same record.  So the
refresh path does not raise "whenever the written record is not a
well-formed record containing an access token". -/
theorem C4_refresh_verification_counterexample :
    (refreshWriteSeq ⟨none, none, false⟩ (some (.jObj []))).1 = .ok () ∧
    wellFormedRecord (some (.jObj [])) = false ∧
    (saveWriteSeq ⟨none, none, false⟩ (some (.jObj []))).1 = .error () :=
  ⟨rfl, rfl, rfl⟩

/-- C4 amended: `refreshTokensInternal` performs the same durable-write
sequence as `save` on every record that passes save's verification, but
its own post-write verification only requires the written content to
parse to a truthy value of object type — it never checks for an access
token — and it raises (after deleting the temp file and releasing its
tracking, leaving the token path untouched) exactly when that weaker
check fails. -/
theorem C4_refresh_verification_amended (st : RWState) (w : Option JsonVal) :
    (saveVerifyOk w = true → refreshWriteSeq st w = saveWriteSeq st w) ∧
    ((refreshWriteSeq st w).1 = .error () ↔ refreshVerifyOk w = false) ∧
    (refreshVerifyOk w = false →
      (refreshWriteSeq st w).2.temp = none ∧
      (refreshWriteSeq st w).2.tracked = false ∧
      (refreshWriteSeq st w).2.disk = st.disk) ∧
    (refreshVerifyOk w = true →
      (refreshWriteSeq st w).2.disk = some w ∧
      (refreshWriteSeq st w).2.tracked = false) := by
  refine ⟨?_, ?_, ?_, ?_⟩
  · intro h
    unfold refreshWriteSeq saveWriteSeq
    rw [if_pos (saveVerify_implies_refreshVerify w h), if_pos h]
  · by_cases hv : refreshVerifyOk w = true
    · simp [refreshWriteSeq, hv]
    · rw [Bool.not_eq_true] at hv
      simp [refreshWriteSeq, hv]
  · intro hv
    simp [refreshWriteSeq, hv]
  · intro hv
    simp [refreshWriteSeq, hv]

/-- Witness for C4 amended on a well-formed record. -/
theorem C4_refresh_verification_amended_witness :
    refreshWriteSeq ⟨none, none, false⟩ (some (.jObj [("access_token", .jStr "A")])) =
      saveWriteSeq ⟨none, none, false⟩ (some (.jObj [("access_token", .jStr "A")])) ∧
    (refreshWriteSeq ⟨none, none, false⟩
        (some (.jObj [("access_token", .jStr "A")]))).2.disk =
      some (some (.jObj [("access_token", .jStr "A")])) :=
  ⟨(C4_refresh_verification_amended ⟨none, none, false⟩
      (some (.jObj [("access_token", .jStr "A")]))).1 rfl,
   ((C4_refresh_verification_amended ⟨none, none, false⟩
      (some (.jObj [("access_token", .jStr "A")]))).2.2.2 rfl).1⟩

/-- Deleting an id from the registry leaves no entry under that id. -/
theorem registryLookup_delete (reg : Registry) (id : String) :
    registryLookup (registryDelete id reg) id = none := by
  unfold registryDelete registryLookup
  induction reg with
  | nil => rfl
  | cons p t ih =>
    by_cases hp : p.1 = id
    · rw [List.filter_cons_of_neg (by simp [hp])]
      exact ih
    · rw [List.filter_cons_of_pos (by simp [hp])]
      rw [List.find?_cons_of_neg _ (by simpa using hp)]
      exact ih

/-- C9 counterexample: `saveTokens` registers every invocation under the
fixed id "save-tokens", so a second concurrent save overwrites the first
save's registry entry instead of occupying a distinct one — the registry
holds one entry, not two — and the first save's settlement removes the
shared entry even though it now belongs to the second save. -/
theorem C9_registry_counterexample :
    registerOperation .running saveTokensRegistryId 0 [] = .ok [("save-tokens", 0)] ∧
    registerOperation .running saveTokensRegistryId 1 [("save-tokens", 0)] =
      .ok [("save-tokens", 1)] ∧
    ([("save-tokens", 1)] : Registry).length = 1 ∧
    registryLookup [("save-tokens", 1)] saveTokensRegistryId = some 1 ∧
    (settleWrapper saveTokensRegistryId [("save-tokens", 1)] (.ok 0)).2 = [] :=
  ⟨rfl, rfl, rfl, rfl, rfl⟩

/-- C9 amended: while the phase is `running`, every `saveTokens`
invocation is registered under the fixed id "save-tokens" — so concurrent
saves share one registry entry, the newest registration owning it — and
the wrapper's settlement deletes whatever entry is stored under that id
while passing the underlying operation's result or error through
unchanged. -/
theorem C9_registry_amended (phase : ShutdownPhase) (reg : Registry) (op : Nat)
    (out : Except String Nat) (h : phase = .running) :
    registerOperation phase saveTokensRegistryId op reg =
      .ok (registryInsert saveTokensRegistryId op reg) ∧
    registryLookup (registryInsert saveTokensRegistryId op reg) saveTokensRegistryId =
      some op ∧
    (settleWrapper saveTokensRegistryId reg out).1 = out ∧
    registryLookup (settleWrapper saveTokensRegistryId reg out).2 saveTokensRegistryId =
      none := by
  refine ⟨?_, ?_, rfl, ?_⟩
  · unfold registerOperation
    rw [if_neg (by simp [h])]
  · simp [registryInsert, registryLookup, List.find?]
  · exact registryLookup_delete reg saveTokensRegistryId

/-- Witness for C9 amended on a concrete registry and settlement. -/
theorem C9_registry_amended_witness :
    registerOperation .running saveTokensRegistryId 5 [("load-tokens", 2)] =
      .ok (registryInsert saveTokensRegistryId 5 [("load-tokens", 2)]) ∧
    registryLookup (registryInsert saveTokensRegistryId 5 [("load-tokens", 2)])
      saveTokensRegistryId = some 5 ∧
    (settleWrapper saveTokensRegistryId [("load-tokens", 2)] (.ok 7)).1 = .ok 7 ∧
    registryLookup (settleWrapper saveTokensRegistryId [("load-tokens", 2)] (.ok 7)).2
      saveTokensRegistryId = none :=
  C9_registry_amended .running [("load-tokens", 2)] 5 (.ok 7) rfl
